import Mathlib

/-!
Shallow embedding of the fx-tracker synchronization core
(`src/services/currencyApi.ts`, `src/services/cacheManager.ts`,
`src/services/rateLimiter.ts`, `src/services/backendApi.ts`).

Numbers are modelled as rationals, async effects by explicit state
passing over `St`, the fixed external world (network responses, clock,
calendar day) by `Env`, and thrown JS exceptions by `Except Err`.
Since JS exceptions do not roll back already-performed writes, every
effectful function returns its (possibly updated) state alongside the
`Except` result.
-/

/-- One OHLC record (`DailyRate` in `src/types/index.ts`).  The source
field `open` is called `opn` here because `open` is a Lean keyword. -/
structure DailyRate where
  date : String
  opn : ℚ
  high : ℚ
  low : ℚ
  close : ℚ
deriving Repr, DecidableEq

/-- A backend row (`ExchangeRateRecord` in `backendApi.ts`); the source
field `open` is called `opn` here. -/
structure ExchangeRateRecord where
  from_currency : String
  to_currency : String
  date : String
  opn : ℚ
  high : ℚ
  low : ℚ
  close : ℚ
deriving Repr, DecidableEq

/-- A cached series (`CurrencyData` in `src/types/index.ts`). -/
structure CurrencyData where
  pairFrom : String
  pairTo : String
  rates : List DailyRate
  lastUpdated : Nat
deriving Repr, DecidableEq

/-- Daily call-budget record (`RateLimitData` in `rateLimiter.ts`). -/
structure RateLimitData where
  date : String
  calls : Nat
  lastCall : Nat
deriving Repr, DecidableEq

/-- Outcome of one external-API HTTP exchange, as observed after
`fetch`/`response.json()` in `fetchFromApi`: the network layer rejects
(`netFail`), the response has non-success HTTP status (`httpFail`), the
payload carries a rate-limit `Note` (`note`) or an `Error Message`
(`errMsg`), or it parses to a `DailyRate` list (`ok`, carrying the
already-parsed, date-sorted output of `parseRates`). -/
inductive ApiOutcome where
  | netFail
  | httpFail
  | note
  | errMsg
  | ok (rates : List DailyRate)
deriving Repr, DecidableEq

/-- The distinct `throw new Error(...)` sites of the embedded code. -/
inductive Err where
  | budgetExceeded
  | networkFail
  | httpError
  | rateLimitNote
  | apiErrorMessage
deriving Repr, DecidableEq

/-- Decidable equality for `Except` results, so that concrete runs can
be checked by evaluation. -/
instance exceptDecEq {ε α : Type} [DecidableEq ε] [DecidableEq α] :
    DecidableEq (Except ε α) := fun x y =>
  match x, y with
  | .ok a, .ok b =>
    if h : a = b then .isTrue (congrArg Except.ok h)
    else .isFalse fun hc => h (Except.ok.inj hc)
  | .error a, .error b =>
    if h : a = b then .isTrue (congrArg Except.error h)
    else .isFalse fun hc => h (Except.error.inj hc)
  | .ok _, .error _ => .isFalse fun hc => Except.noConfusion hc
  | .error _, .ok _ => .isFalse fun hc => Except.noConfusion hc

/-- The fixed external world of one run: today's calendar day, the
clock, the external API's response per `(from, to)` pair (absent pair =
unreachable network), and the backend `GET /rates` response per pair.
`fetchRatesFromBackend` swallows every failure into an empty list, so a
backend outcome is just the returned row list (absent pair = failure or
no rows, both observed as `[]`). -/
structure Env where
  today : String
  now : Nat
  apiResp : List ((String × String) × ApiOutcome)
  backendResp : List ((String × String) × List ExchangeRateRecord)
deriving Repr, DecidableEq

/-- Mutable process state: the IndexedDB currency-data store (keyed by
`"FROM/TO"`), the metadata store, the localStorage budget record, and
instrumentation counters for the network/storage accesses performed
(number of external-API HTTP fetches, backend reads, backend writes,
and local-cache reads). -/
structure St where
  cache : List (String × CurrencyData)
  meta : List (String × String)
  rl : RateLimitData
  apiNetworkCalls : Nat
  backendReads : Nat
  backendWrites : Nat
  cacheReads : Nat
deriving Repr, DecidableEq

/-- Insert-or-replace for the association lists backing the stores
(IndexedDB `put` semantics: replace the record with the same key). -/
def putAssoc {α : Type} (k : String) (v : α) : List (String × α) → List (String × α)
  | [] => [(k, v)]
  | (k', v') :: rest => if k' = k then (k, v) :: rest else (k', v') :: putAssoc k v rest

/-- `BASE_CURRENCY` from `src/types/index.ts`. -/
def BASE_CURRENCY : String := "USD"

/-- `FETCH_CURRENCIES` from `src/types/index.ts`. -/
def FETCH_CURRENCIES : List String := ["EUR", "GBP", "JPY", "CNY", "CHF", "AUD", "CAD", "NZD"]

/-- `getPairKey` from `cacheManager.ts`. -/
def getPairKey (f t : String) : String := f ++ "/" ++ t

/-- `saveCurrencyData` from `cacheManager.ts`: whole-record replace of
the pair's entry, stamped with the current time. -/
def saveCurrencyData (env : Env) (f t : String) (rates : List DailyRate) (st : St) : St :=
  { st with cache := putAssoc (getPairKey f t) ⟨f, t, rates, env.now⟩ st.cache }

/-- `getCurrencyData` from `cacheManager.ts`; counts one cache read. -/
def getCurrencyData (f t : String) (st : St) : Option CurrencyData × St :=
  (st.cache.lookup (getPairKey f t), { st with cacheReads := st.cacheReads + 1 })

/-- `hasCachedData` from `cacheManager.ts`:
`data !== null && data.rates.length > 0`. -/
def hasCachedData (f t : String) (st : St) : Bool × St :=
  let (data, st1) := getCurrencyData f t st
  (match data with
   | some d => decide (0 < d.rates.length)
   | none => false, st1)

/-- `saveMetadata` from `cacheManager.ts`. -/
def saveMetadata (k v : String) (st : St) : St :=
  { st with meta := putAssoc k v st.meta }

/-- `getMetadata` from `cacheManager.ts`. -/
def getMetadata (k : String) (st : St) : Option String :=
  st.meta.lookup k

/-- `areAllBasePairsUpdatedToday` from `cacheManager.ts`. -/
def areAllBasePairsUpdatedToday (env : Env) (st : St) : Bool :=
  getMetadata "lastBatchUpdateDate" st == some env.today

/-- `markBatchUpdateComplete` from `cacheManager.ts`. -/
def markBatchUpdateComplete (env : Env) (st : St) : St :=
  saveMetadata "lastBatchUpdateDate" env.today st

/-- `SAFE_LIMIT` from `rateLimiter.ts` (daily limit 25, one-call buffer). -/
def SAFE_LIMIT : Nat := 24

/-- `loadData` from `rateLimiter.ts`: the stored record, reset to zero
calls when its date is not today. -/
def loadData (env : Env) (st : St) : RateLimitData :=
  if st.rl.date = env.today then st.rl else ⟨env.today, 0, 0⟩

/-- `canMakeApiCall` from `rateLimiter.ts`: `data.calls < SAFE_LIMIT`. -/
def canMakeApiCall (env : Env) (st : St) : Bool :=
  decide ((loadData env st).calls < SAFE_LIMIT)

/-- `recordApiCall` from `rateLimiter.ts`: increment the daily count and
stamp the call time. -/
def recordApiCall (env : Env) (st : St) : St :=
  let d := loadData env st
  { st with rl := ⟨d.date, d.calls + 1, env.now⟩ }

/-- The external API response chosen by the environment for a pair;
a pair with no stubbed response behaves as an unreachable network. -/
def lookupApi (env : Env) (f t : String) : ApiOutcome :=
  (env.apiResp.lookup (f, t)).getD .netFail

/-- `fetchFromApi` from `currencyApi.ts`.  Order of effects as in the
source: budget gate first (`canMakeApiCall`, throwing before any
network traffic and before any state change), then the inter-call wait
(pure delay, no modelled effect), then the HTTP fetch (counted in
`apiNetworkCalls`), then `recordApiCall()` — which therefore runs on
every outcome except a network-level rejection of `fetch` itself —
then the status/`Note`/`Error Message` checks, each throwing. -/
def fetchFromApi (env : Env) (f t : String) (st : St) : Except Err (List DailyRate) × St :=
  if canMakeApiCall env st = false then
    (.error .budgetExceeded, st)
  else
    let st1 := { st with apiNetworkCalls := st.apiNetworkCalls + 1 }
    match lookupApi env f t with
    | .netFail => (.error .networkFail, st1)
    | .httpFail => (.error .httpError, recordApiCall env st1)
    | .note => (.error .rateLimitNote, recordApiCall env st1)
    | .errMsg => (.error .apiErrorMessage, recordApiCall env st1)
    | .ok rates => (.ok rates, recordApiCall env st1)

/-- `fetchRatesFromBackend` from `backendApi.ts`: performs one backend
read; every failure is caught internally and returned as `[]`. -/
def fetchRatesFromBackend (env : Env) (f t : String) (st : St) :
    List ExchangeRateRecord × St :=
  ((env.backendResp.lookup (f, t)).getD [], { st with backendReads := st.backendReads + 1 })

/-- `saveRatesToBackend` from `backendApi.ts`: one backend write; its
boolean result is not inspected by the resolution engine, and its
failures are caught by the callers, so only the write itself is
modelled. -/
def saveRatesToBackend (rates : List ExchangeRateRecord) (st : St) : St :=
  { st with backendWrites := st.backendWrites + 1 }

/-- Rates held by an optional cache record (`cached.rates`, with the
absent record contributing none). -/
def cachedRates (c : Option CurrencyData) : List DailyRate :=
  match c with
  | some d => d.rates
  | none => []

/-- The source test `cached && cached.rates.length > 0`. -/
def cachedNonEmpty (c : Option CurrencyData) : Bool :=
  match c with
  | some d => decide (0 < d.rates.length)
  | none => false

/-- Lookup in the JS `Map` built by `toToUsd.forEach((rate) =>
toUsdMap.set(rate.date, rate))`: iterating forward with `set` makes the
last record with a given date win, hence the reversed search. -/
def mapGet (l : List DailyRate) (d : String) : Option DailyRate :=
  l.reverse.find? fun r => r.date == d

/-- `calculateCrossRate` from `currencyApi.ts`: keep the from-leg
records whose date the to-leg map contains, then divide; the `getD fr`
default models the non-null assertion `toUsdMap.get(fromRate.date)!`,
which the preceding filter makes unreachable. -/
def calculateCrossRate (fromToUsd toToUsd : List DailyRate) : List DailyRate :=
  (fromToUsd.filter fun r => (mapGet toToUsd r.date).isSome).map fun fr =>
    let tr := (mapGet toToUsd fr.date).getD fr
    { date := fr.date, opn := fr.opn / tr.opn, high := fr.high / tr.low,
      low := fr.low / tr.high, close := fr.close / tr.close }

/-- STEP 3 of `getCurrencyPairData` (`currencyApi.ts` lines 171-207):
call the external API when forcing refresh or when neither cache nor
backend produced data; persist a successful result to the local cache
and (when non-empty) to the backend; on failure fall back to a
non-empty stale cache record, else rethrow. -/
def resolveDirectStep3 (env : Env) (f t : String) (force : Bool)
    (cached : Option CurrencyData) (st : St) : Except Err (List DailyRate) × St :=
  -- `if (forceRefresh || !cached || cached.rates.length === 0)`
  if force = true ∨ cached = none ∨ (cachedRates cached).length = 0 then
    match fetchFromApi env f t st with
    | (.ok rates, st1) =>
      let st2 := saveCurrencyData env f t rates st1
      let st3 :=
        if 0 < rates.length then
          saveRatesToBackend (rates.map fun r =>
            { from_currency := f, to_currency := t, date := r.date,
              opn := r.opn, high := r.high, low := r.low, close := r.close }) st2
        else st2
      (.ok rates, st3)
    | (.error e, st1) =>
      -- `if (cached && cached.rates.length > 0) return cached.rates; throw`
      if cachedNonEmpty cached then (.ok (cachedRates cached), st1)
      else (.error e, st1)
  else
    -- `return []` — the source's unreachable fallback
    (.ok [], st)

/-- Case 3 of `getCurrencyPairData` (`from = X, to = USD`,
`currencyApi.ts` lines 139-210): cache first, then backend (only when
not forcing refresh; `fetchRatesFromBackend` never throws, so the
source's surrounding try/catch is inert), then STEP 3. -/
def resolveDirect (env : Env) (f t : String) (force : Bool) (st : St) :
    Except Err (List DailyRate) × St :=
  -- STEP 1: always read the local cache first
  let (cached, st1) := getCurrencyData f t st
  -- `if (cached && cached.rates.length > 0 && !forceRefresh)`
  if cachedNonEmpty cached = true ∧ force = false then
    (.ok (cachedRates cached), st1)
  else if force = false then
    -- STEP 2: no usable cache, try the backend database
    let (backendRates, st2) := fetchRatesFromBackend env f t st1
    if 0 < backendRates.length then
      let rates : List DailyRate := backendRates.map fun r =>
        { date := r.date, opn := r.opn, high := r.high, low := r.low, close := r.close }
      let st3 := saveCurrencyData env f t rates st2
      (.ok rates, st3)
    else
      resolveDirectStep3 env f t force cached st2
  else
    resolveDirectStep3 env f t force cached st1

/-- The recursive calls of the source `getCurrencyPairData` always pass
`BASE_CURRENCY` as `to`; on such arguments the source body reduces to
the `from === to` guard followed by case 3 (the two pivot branches both
require `to !== BASE_CURRENCY`).  This is that specialization; the
lemma `getCurrencyPairData_base_eq` below proves it coincides with the
full dispatcher at `to = BASE_CURRENCY`. -/
def getCurrencyPairDataBase (env : Env) (f : String) (force : Bool) (st : St) :
    Except Err (List DailyRate) × St :=
  if f = BASE_CURRENCY then (.ok [], st)
  else resolveDirect env f BASE_CURRENCY force st

/-- `getCurrencyPairData` from `currencyApi.ts`: same-currency guard,
inversion through the pivot, cross-rate through the pivot (the source's
`Promise.all` fan-out sequentialized left leg first), and the direct
base case.  The recursive calls of the source, all of the shape
`getCurrencyPairData(x, BASE_CURRENCY, forceRefresh)`, are written via
the specialization `getCurrencyPairDataBase`. -/
def getCurrencyPairData (env : Env) (f t : String) (force : Bool) (st : St) :
    Except Err (List DailyRate) × St :=
  -- `if (from === to) return []`
  if f = t then (.ok [], st)
  -- Case 1: `from === BASE_CURRENCY && to !== BASE_CURRENCY` — invert to/USD
  else if f = BASE_CURRENCY ∧ t ≠ BASE_CURRENCY then
    match getCurrencyPairDataBase env t force st with
    | (.error e, st1) => (.error e, st1)
    | (.ok directRate, st1) =>
      if directRate.length = 0 then (.ok [], st1)
      else
        (.ok (directRate.map fun r =>
          { date := r.date, opn := 1 / r.opn, high := 1 / r.low,
            low := 1 / r.high, close := 1 / r.close }), st1)
  -- Case 2: both non-USD — cross rate from the two USD legs
  else if f ≠ BASE_CURRENCY ∧ t ≠ BASE_CURRENCY then
    match getCurrencyPairDataBase env f force st with
    | (.error e, st1) => (.error e, st1)
    | (.ok fromToUsd, st1) =>
      match getCurrencyPairDataBase env t force st1 with
      | (.error e, st2) => (.error e, st2)
      | (.ok toToUsd, st2) =>
        if fromToUsd.length = 0 ∨ toToUsd.length = 0 then (.ok [], st2)
        else (.ok (calculateCrossRate fromToUsd toToUsd), st2)
  -- Case 3: `from = X, to = USD`
  else
    resolveDirect env f t force st

/-- Success/failure counts returned by `prefetchBasePairs`. -/
structure BatchResult where
  success : Nat
  failed : Nat
deriving Repr, DecidableEq

/-- The loop body of `prefetchBasePairs` (`currencyApi.ts` lines
254-268): for each currency fetch from the API and save to the cache;
count a success or a failure; either way increment `current` and report
`(current, total, currency)` progress.  The `onProgress` callback is
modelled as the accumulated event list. -/
def prefetchLoop (env : Env) (cs : List String) (total current success failed : Nat)
    (log : List (Nat × Nat × String)) (st : St) :
    BatchResult × List (Nat × Nat × String) × St :=
  match cs with
  | [] => (⟨success, failed⟩, log, st)
  | c :: rest =>
    match fetchFromApi env c BASE_CURRENCY st with
    | (.ok rates, st1) =>
      let st2 := saveCurrencyData env c BASE_CURRENCY rates st1
      prefetchLoop env rest total (current + 1) (success + 1) failed
        (log ++ [(current + 1, total, c)]) st2
    | (.error _, st1) =>
      prefetchLoop env rest total (current + 1) success (failed + 1)
        (log ++ [(current + 1, total, c)]) st1

/-- `prefetchBasePairs` from `currencyApi.ts`: unless forcing, a
same-day batch marker short-circuits; otherwise fetch every
`FETCH_CURRENCIES` entry against the pivot, and mark the batch complete
only when zero failures occurred. -/
def prefetchBasePairs (env : Env) (force : Bool) (st : St) :
    BatchResult × List (Nat × Nat × String) × St :=
  if force = false ∧ areAllBasePairsUpdatedToday env st = true then
    (⟨FETCH_CURRENCIES.length, 0⟩, [], st)
  else
    let r := prefetchLoop env FETCH_CURRENCIES FETCH_CURRENCIES.length 0 0 0 [] st
    let st2 := if r.1.failed = 0 then markBatchUpdateComplete env r.2.2 else r.2.2
    (r.1, r.2.1, st2)

/-- Counters delivered to the `onComplete` callback of
`backgroundSyncFromBackend` (and returned by `prefetchAllFromBackend`). -/
structure SyncResult where
  success : Nat
  failed : Nat
  totalRecords : Nat
deriving Repr, DecidableEq

/-- The currency order used by `backgroundSyncFromBackend`: the
priority currency first (when given and not the pivot), then the
remaining `FETCH_CURRENCIES`. -/
def orderedCurrencies (priorityCurrency : Option String) : List String :=
  match priorityCurrency with
  | some p =>
    if p ≠ BASE_CURRENCY then p :: FETCH_CURRENCIES.filter (fun c => c ≠ p)
    else FETCH_CURRENCIES
  | none => FETCH_CURRENCIES

/-- The loop body of `backgroundSyncFromBackend` (`currencyApi.ts`
lines 421-453): skip a currency whose pair is already cache-resident
(counted as success); otherwise read the backend, adopting a non-empty
result into the cache (success, records counted) and counting an empty
result as a failure.  The modelled cache and backend reads are total,
so the source's per-item catch adds no further case. -/
def backgroundSyncLoop (env : Env) (cs : List String)
    (success failed totalRecords : Nat) (st : St) : SyncResult × St :=
  match cs with
  | [] => (⟨success, failed, totalRecords⟩, st)
  | c :: rest =>
    let (hasData, st1) := hasCachedData c BASE_CURRENCY st
    if hasData then
      backgroundSyncLoop env rest (success + 1) failed totalRecords st1
    else
      let (backendRates, st2) := fetchRatesFromBackend env c BASE_CURRENCY st1
      if 0 < backendRates.length then
        let rates : List DailyRate := backendRates.map fun r =>
          { date := r.date, opn := r.opn, high := r.high, low := r.low, close := r.close }
        let st3 := saveCurrencyData env c BASE_CURRENCY rates st2
        backgroundSyncLoop env rest (success + 1) failed (totalRecords + rates.length) st3
      else
        backgroundSyncLoop env rest success (failed + 1) totalRecords st2

/-- `backgroundSyncFromBackend` from `currencyApi.ts`: the detached
task's whole effect — iterate `orderedCurrencies`, backend tier only;
the returned `SyncResult` is the payload passed to `onComplete`. -/
def backgroundSyncFromBackend (env : Env) (priorityCurrency : Option String) (st : St) :
    SyncResult × St :=
  backgroundSyncLoop env (orderedCurrencies priorityCurrency) 0 0 0 st

/-- The client-local budget invariant: the daily call count, as the
tracker itself reads it back (`loadData`), is at most the safe ceiling. -/
def BudgetOk (env : Env) (st : St) : Prop :=
  (loadData env st).calls ≤ SAFE_LIMIT

def envC5 : Env := ⟨"2026-02-03", 5, [], []⟩

def stC5 : St := ⟨[], [], ⟨"2026-02-03", 24, 0⟩, 0, 0, 0, 0⟩

def rateC1 : DailyRate := ⟨"2024-01-02", 1, 2, 1/2, 3/2⟩

def envC1 : Env := ⟨"2026-02-03", 7, [], []⟩

def stC1 : St := ⟨[("EUR/USD", ⟨"EUR", "USD", [rateC1], 3⟩)], [], ⟨"2026-02-03", 24, 9⟩, 0, 0, 0, 0⟩

def envC1w : Env := ⟨"2026-02-03", 7, [], []⟩

def stC1w : St := ⟨[], [], ⟨"2026-02-03", 24, 9⟩, 0, 0, 0, 0⟩

def rateC3 : DailyRate := ⟨"2024-01-03", 2, 4, 1, 2⟩

def envC3 : Env := ⟨"2026-02-03", 11, [], []⟩

def stC3 : St := ⟨[("EUR/USD", ⟨"EUR", "USD", [rateC3], 3⟩)], [], ⟨"2026-02-03", 0, 0⟩, 0, 0, 0, 0⟩

def recC8 : ExchangeRateRecord := ⟨"EUR", "USD", "2024-01-01", 1, 2, 1, 2⟩

def envC8 : Env := ⟨"2026-02-03", 13, [], [(("EUR", "USD"), [recC8])]⟩

def stC8 : St := ⟨[], [], ⟨"2026-02-03", 0, 0⟩, 0, 0, 0, 0⟩

def envC4 : Env := ⟨"2026-02-03", 7, [(("EUR", "USD"), .ok [])], []⟩

def stC4 : St := ⟨[], [], ⟨"2026-02-03", 0, 0⟩, 0, 0, 0, 0⟩

def rateC4 : DailyRate := ⟨"2024-01-05", 3, 4, 2, 3⟩

def recC4 : ExchangeRateRecord := ⟨"EUR", "USD", "2024-01-05", 3, 4, 2, 3⟩

def envC4w : Env := ⟨"2026-02-03", 17, [], [(("EUR", "USD"), [recC4])]⟩

def stC4w : St := ⟨[], [], ⟨"2026-02-03", 0, 0⟩, 0, 0, 0, 0⟩

/-- The cross-rate join written from the spec's words (§4.1): inner
join of the two legs on exact ISO-date string equality — a from-leg
record survives exactly when some to-leg record carries the same date —
with the joined record `open = open_from/open_to`,
`high = high_from/low_to`, `low = low_from/high_to`,
`close = close_from/close_to`, in from-leg order.  Used to compare the
source's `calculateCrossRate` against the specification. -/
def crossRateSpec (L1 L2 : List DailyRate) : List DailyRate :=
  L1.filterMap fun a =>
    (L2.find? fun b => b.date == a.date).map fun b =>
      { date := a.date, opn := a.opn / b.opn, high := a.high / b.low,
        low := a.low / b.high, close := a.close / b.close }

def ratesC2eur : List DailyRate :=
  [⟨"2024-01-01", 2, 2, 2, 2⟩, ⟨"2024-01-02", 4, 4, 4, 4⟩, ⟨"2024-01-03", 8, 8, 8, 8⟩]

def ratesC2jpy : List DailyRate :=
  [⟨"2024-01-02", 2, 2, 2, 2⟩, ⟨"2024-01-03", 2, 2, 2, 2⟩, ⟨"2024-01-04", 2, 2, 2, 2⟩]

def envC2 : Env := ⟨"2026-02-03", 19, [], []⟩

def stC2 : St :=
  ⟨[("EUR/USD", ⟨"EUR", "USD", ratesC2eur, 3⟩), ("JPY/USD", ⟨"JPY", "USD", ratesC2jpy, 3⟩)],
   [], ⟨"2026-02-03", 0, 0⟩, 0, 0, 0, 0⟩

def ratesC10a : List DailyRate := [⟨"2024-01-01", 1, 1, 1, 1⟩, ⟨"2024-01-02", 2, 2, 2, 2⟩]

def ratesC10b : List DailyRate := [⟨"2024-01-02", 1, 1, 1, 1⟩, ⟨"2024-01-03", 3, 3, 3, 3⟩]

/-- The progress events the prefetch loop reports over a currency list,
starting from a given `current` counter: one `(current, total,
currency)` triple per currency, in order, with `current` counting up. -/
def prefetchLogExpected (current total : Nat) : List String → List (Nat × Nat × String)
  | [] => []
  | c :: rest => (current + 1, total, c) :: prefetchLogExpected (current + 1) total rest

def envC6 : Env := ⟨"2026-02-03", 23, [], []⟩

def stC6 : St := ⟨[], [], ⟨"2026-02-03", 0, 0⟩, 0, 0, 0, 0⟩

/-- The specialization used for the source's recursive calls agrees
with the full dispatcher at `to = BASE_CURRENCY`. -/
theorem getCurrencyPairData_base_eq (env : Env) (f : String) (force : Bool) (st : St) :
    getCurrencyPairData env f BASE_CURRENCY force st = getCurrencyPairDataBase env f force st := by
  unfold getCurrencyPairData getCurrencyPairDataBase
  by_cases h : f = BASE_CURRENCY <;> simp [h]

/-- Looking up the key just written by `putAssoc` yields the new value. -/
theorem lookup_putAssoc_self {α : Type} (k : String) (v : α) (l : List (String × α)) :
    (putAssoc k v l).lookup k = some v := by
  induction l with
  | nil => simp [putAssoc]
  | cons p rest ih =>
    obtain ⟨k', v'⟩ := p
    by_cases h : k' = k
    · simp [putAssoc, h, List.lookup]
    · have h2 : (k == k') = false := by
        simp only [beq_eq_false_iff_ne, ne_eq]
        exact fun hh => h hh.symm
      simp [putAssoc, h, List.lookup, h2, ih]

/-- The record `loadData` returns is always dated today. -/
theorem loadData_date (env : Env) (st : St) : (loadData env st).date = env.today := by
  unfold loadData
  split <;> simp_all

/-- `loadData` reads only the budget record of the state. -/
theorem loadData_rl (env : Env) (st st' : St) (h : st'.rl = st.rl) :
    loadData env st' = loadData env st := by
  unfold loadData
  rw [h]

/-- `canMakeApiCall` reads only the budget record of the state. -/
theorem canMakeApiCall_rl (env : Env) (st st' : St) (h : st'.rl = st.rl) :
    canMakeApiCall env st' = canMakeApiCall env st := by
  unfold canMakeApiCall
  rw [loadData_rl env st st' h]

/-- C9: for every currency X and every forceRefresh flag,
resolvePair(X, X, forceRefresh) returns an empty sequence without
raising an error and with the state — including every access counter —
untouched (no cache read, no backend call, no external API call). -/
theorem claim_C9 (env : Env) (X : String) (force : Bool) (st : St) :
    getCurrencyPairData env X X force st = (.ok [], st) := by
  unfold getCurrencyPairData
  simp

/-- C3: for every X different from the base, resolvePair(base, X, f) is
the elementwise inversion of resolvePair(X, base, f): same dates in the
same order, open' = 1/open, high' = 1/low, low' = 1/high,
close' = 1/close (run from the same start state, leaving the same end
state). -/
theorem claim_C3 (env : Env) (st st1 : St) (X : String) (force : Bool) (L : List DailyRate)
    (hX : X ≠ BASE_CURRENCY)
    (h : getCurrencyPairData env X BASE_CURRENCY force st = (.ok L, st1)) :
    getCurrencyPairData env BASE_CURRENCY X force st =
      (.ok (L.map fun r =>
        { date := r.date, opn := 1 / r.opn, high := 1 / r.low,
          low := 1 / r.high, close := 1 / r.close }), st1) := by
  rw [getCurrencyPairData_base_eq] at h
  have hne : BASE_CURRENCY ≠ X := fun hh => hX hh.symm
  unfold getCurrencyPairData
  rw [if_neg hne, if_pos ⟨rfl, hX⟩, h]
  rcases L with _ | ⟨a, L'⟩ <;> simp

/-- `BudgetOk` depends only on the budget record. -/
theorem budgetOk_rl (env : Env) (st st' : St) (h : st'.rl = st.rl)
    (hb : BudgetOk env st) : BudgetOk env st' := by
  unfold BudgetOk
  rw [loadData_rl env st st' h]
  exact hb

/-- Recording a call increments the read-back daily count by one. -/
theorem loadData_recordApiCall (env : Env) (st : St) :
    loadData env (recordApiCall env st) =
      ⟨env.today, (loadData env st).calls + 1, env.now⟩ := by
  unfold recordApiCall loadData
  by_cases h : st.rl.date = env.today <;> simp [h]

/-- One `fetchFromApi` run keeps the daily count at or below the
ceiling: it increments only after `canMakeApiCall` saw a strictly
smaller count. -/
theorem budget_fetchFromApi (env : Env) (f t : String) (st : St)
    (h : BudgetOk env st) : BudgetOk env (fetchFromApi env f t st).2 := by
  unfold fetchFromApi
  by_cases hb : canMakeApiCall env st = false
  · rw [if_pos hb]
    exact h
  · rw [if_neg hb]
    have hlt : (loadData env st).calls < SAFE_LIMIT := by
      unfold canMakeApiCall at hb
      simpa using hb
    have hrec : BudgetOk env (recordApiCall env { st with apiNetworkCalls := st.apiNetworkCalls + 1 }) := by
      unfold BudgetOk
      rw [loadData_recordApiCall]
      have : loadData env { st with apiNetworkCalls := st.apiNetworkCalls + 1 } = loadData env st :=
        loadData_rl env st _ rfl
      simp only [this]
      omega
    cases lookupApi env f t with
    | netFail => exact budgetOk_rl env st _ rfl h
    | httpFail => exact hrec
    | note => exact hrec
    | errMsg => exact hrec
    | ok rates => exact hrec

/-- STEP 3 keeps the daily count at or below the ceiling. -/
theorem budget_resolveDirectStep3 (env : Env) (f t : String) (force : Bool)
    (cached : Option CurrencyData) (st : St) (h : BudgetOk env st) :
    BudgetOk env (resolveDirectStep3 env f t force cached st).2 := by
  unfold resolveDirectStep3
  split
  · rcases hf : fetchFromApi env f t st with ⟨r, st1⟩
    have h1 : BudgetOk env st1 := by
      have := budget_fetchFromApi env f t st h
      rwa [hf] at this
    cases r with
    | ok rates =>
      dsimp only
      refine budgetOk_rl env st1 _ ?_ h1
      split <;> rfl
    | error e =>
      dsimp only
      split <;> exact h1
  · exact h

/-- The direct base-case resolution keeps the daily count at or below
the ceiling. -/
theorem budget_resolveDirect (env : Env) (f t : String) (force : Bool) (st : St)
    (h : BudgetOk env st) : BudgetOk env (resolveDirect env f t force st).2 := by
  unfold resolveDirect getCurrencyData fetchRatesFromBackend
  have h1 : BudgetOk env { st with cacheReads := st.cacheReads + 1 } :=
    budgetOk_rl env st _ rfl h
  dsimp only
  split
  · exact h1
  · split
    · split
      · exact budgetOk_rl env st _ rfl h
      · exact budget_resolveDirectStep3 env f t force _ _
          (budgetOk_rl env st _ rfl h)
    · exact budget_resolveDirectStep3 env f t force _ _ h1

/-- The base-pair specialization keeps the daily count at or below the
ceiling. -/
theorem budget_getCurrencyPairDataBase (env : Env) (f : String) (force : Bool) (st : St)
    (h : BudgetOk env st) : BudgetOk env (getCurrencyPairDataBase env f force st).2 := by
  unfold getCurrencyPairDataBase
  split
  · exact h
  · exact budget_resolveDirect env f BASE_CURRENCY force st h

/-- The whole resolution keeps the daily count at or below the ceiling. -/
theorem budget_getCurrencyPairData (env : Env) (f t : String) (force : Bool) (st : St)
    (h : BudgetOk env st) : BudgetOk env (getCurrencyPairData env f t force st).2 := by
  unfold getCurrencyPairData
  split
  · exact h
  · split
    · rcases h1 : getCurrencyPairDataBase env t force st with ⟨r, st1⟩
      have hb1 : BudgetOk env st1 := by
        have := budget_getCurrencyPairDataBase env t force st h
        rwa [h1] at this
      cases r with
      | ok directRate =>
        dsimp only
        split <;> exact hb1
      | error e => exact hb1
    · split
      · rcases h1 : getCurrencyPairDataBase env f force st with ⟨r, st1⟩
        have hb1 : BudgetOk env st1 := by
          have := budget_getCurrencyPairDataBase env f force st h
          rwa [h1] at this
        cases r with
        | ok fromToUsd =>
          dsimp only
          rcases h2 : getCurrencyPairDataBase env t force st1 with ⟨r2, st2⟩
          have hb2 : BudgetOk env st2 := by
            have := budget_getCurrencyPairDataBase env t force st1 hb1
            rwa [h2] at this
          cases r2 with
          | ok toToUsd =>
            dsimp only
            split <;> exact hb2
          | error e => exact hb2
        | error e => exact hb1
      · exact budget_resolveDirect env f t force st h

/-- The prefetch loop keeps the daily count at or below the ceiling. -/
theorem budget_prefetchLoop (env : Env) (cs : List String)
    (total current success failed : Nat) (log : List (Nat × Nat × String)) (st : St)
    (h : BudgetOk env st) :
    BudgetOk env (prefetchLoop env cs total current success failed log st).2.2 := by
  induction cs generalizing current success failed log st with
  | nil => exact h
  | cons c rest ih =>
    unfold prefetchLoop
    rcases hf : fetchFromApi env c BASE_CURRENCY st with ⟨r, st1⟩
    have h1 : BudgetOk env st1 := by
      have := budget_fetchFromApi env c BASE_CURRENCY st h
      rwa [hf] at this
    cases r with
    | ok rates => exact ih _ _ _ _ _ (budgetOk_rl env st1 _ rfl h1)
    | error e => exact ih _ _ _ _ _ h1

/-- The blocking batch refresh keeps the daily count at or below the
ceiling. -/
theorem budget_prefetchBasePairs (env : Env) (force : Bool) (st : St)
    (h : BudgetOk env st) : BudgetOk env (prefetchBasePairs env force st).2.2 := by
  unfold prefetchBasePairs
  split
  · exact h
  · have hl := budget_prefetchLoop env FETCH_CURRENCIES FETCH_CURRENCIES.length 0 0 0 [] st h
    dsimp only
    split
    · exact budgetOk_rl env _ _ rfl hl
    · exact hl

/-- C5: when the daily count equals the safe ceiling, `fetchFromApi`
raises the budget error with the state untouched (so no network call
was performed and the counter was not incremented); and the tracked
daily count never exceeds the safe ceiling through this process's own
operations (one fetch, a whole pair resolution, or a whole blocking
batch refresh). -/
theorem claim_C5 (env : Env) (f t : String) (force : Bool) (st : St) :
    ((loadData env st).calls = SAFE_LIMIT →
      fetchFromApi env f t st = (.error .budgetExceeded, st)) ∧
    (BudgetOk env st → BudgetOk env (fetchFromApi env f t st).2) ∧
    (BudgetOk env st → BudgetOk env (getCurrencyPairData env f t force st).2) ∧
    (BudgetOk env st → BudgetOk env (prefetchBasePairs env force st).2.2) := by
  refine ⟨?_, budget_fetchFromApi env f t st,
    budget_getCurrencyPairData env f t force st,
    budget_prefetchBasePairs env force st⟩
  intro hcalls
  unfold fetchFromApi
  rw [if_pos]
  unfold canMakeApiCall
  simp [hcalls]

/-- Witness for C5 at a concrete state whose daily count sits exactly
at the ceiling. -/
theorem claim_C5_witness :
    (loadData envC5 stC5).calls = SAFE_LIMIT ∧
    fetchFromApi envC5 "EUR" "USD" stC5 = (.error .budgetExceeded, stC5) ∧
    BudgetOk envC5 (fetchFromApi envC5 "EUR" "USD" stC5).2 ∧
    BudgetOk envC5 (getCurrencyPairData envC5 "EUR" "USD" false stC5).2 ∧
    BudgetOk envC5 (prefetchBasePairs envC5 false stC5).2.2 :=
  ⟨by decide, (claim_C5 envC5 "EUR" "USD" false stC5).1 (by decide),
   (claim_C5 envC5 "EUR" "USD" false stC5).2.1 (by unfold BudgetOk; decide),
   (claim_C5 envC5 "EUR" "USD" false stC5).2.2.1 (by unfold BudgetOk; decide),
   (claim_C5 envC5 "EUR" "USD" false stC5).2.2.2 (by unfold BudgetOk; decide)⟩

/-- C1 counterexample: daily budget exhausted (24 calls used today) and
a non-empty cached copy of EUR/USD present — the forced refresh
`resolvePair(EUR, USD, true)` does NOT raise the budget error; the
stale-cache fallback of the resolution engine catches it and silently
serves the cached copy. -/
theorem claim_C1_counterexample :
    canMakeApiCall envC1 stC1 = false ∧
    (getCurrencyPairData envC1 "EUR" "USD" true stC1).1 ≠ .error .budgetExceeded ∧
    (getCurrencyPairData envC1 "EUR" "USD" true stC1).1 = .ok [rateC1] := by
  with_unfolding_all decide

/-- C1 (amended): with the daily call budget exhausted, a forced
base-pair refresh performs only the cache read and no network call; it
raises the budget error when no non-empty cached copy of the pair
exists, and otherwise returns the stale cached copy (the stale-cache
fallback downgrades the budget error). -/
theorem claim_C1_amended (env : Env) (st : St) (X : String)
    (hX : X ≠ BASE_CURRENCY) (hb : canMakeApiCall env st = false) :
    getCurrencyPairData env X BASE_CURRENCY true st =
      (if cachedNonEmpty (st.cache.lookup (getPairKey X BASE_CURRENCY)) then
         .ok (cachedRates (st.cache.lookup (getPairKey X BASE_CURRENCY)))
       else .error .budgetExceeded,
       { st with cacheReads := st.cacheReads + 1 }) := by
  rw [getCurrencyPairData_base_eq]
  unfold getCurrencyPairDataBase
  rw [if_neg hX]
  unfold resolveDirect getCurrencyData
  dsimp only
  rw [if_neg (by simp)]
  rw [if_neg (by simp)]
  unfold resolveDirectStep3
  rw [if_pos (Or.inl rfl)]
  have hb1 : canMakeApiCall env { st with cacheReads := st.cacheReads + 1 } = false := by
    rw [canMakeApiCall_rl env st { st with cacheReads := st.cacheReads + 1 } rfl]
    exact hb
  unfold fetchFromApi
  rw [if_pos hb1]
  dsimp only
  split <;> rfl

/-- Witness for the amended C1: empty cache, exhausted budget — the
forced refresh raises the budget error. -/
theorem claim_C1_witness :
    ("EUR" : String) ≠ BASE_CURRENCY ∧ canMakeApiCall envC1w stC1w = false ∧
    getCurrencyPairData envC1w "EUR" BASE_CURRENCY true stC1w =
      (.error .budgetExceeded, { stC1w with cacheReads := 1 }) :=
  ⟨by decide, by decide,
    (claim_C1_amended envC1w stC1w "EUR" (by decide) (by decide)).trans (by decide)⟩

/-- Witness for C3 at a concrete cached EUR/USD series. -/
theorem claim_C3_witness :
    ("EUR" : String) ≠ BASE_CURRENCY ∧
    getCurrencyPairData envC3 BASE_CURRENCY "EUR" false stC3 =
      (.ok ([rateC3].map fun r =>
        { date := r.date, opn := 1 / r.opn, high := 1 / r.low,
          low := 1 / r.high, close := 1 / r.close }),
       { stC3 with cacheReads := 1 }) :=
  ⟨by decide,
    claim_C3 envC3 stC3 { stC3 with cacheReads := 1 } "EUR" false [rateC3]
      (by decide) (by with_unfolding_all decide)⟩

/-- C8: local cache empty for the base-relative pair (X, base), refresh
not forced, backend returns a non-empty row list — resolvePair returns
exactly that series (converted field for field) after one cache read
and one backend read, writes it into the local cache, and `hasData`
for the pair is true afterwards. -/
theorem claim_C8 (env : Env) (st : St) (X : String) (B : List ExchangeRateRecord)
    (hX : X ≠ BASE_CURRENCY)
    (hc : cachedNonEmpty (st.cache.lookup (getPairKey X BASE_CURRENCY)) = false)
    (hb : (env.backendResp.lookup (X, BASE_CURRENCY)).getD [] = B)
    (hB : B ≠ []) :
    getCurrencyPairData env X BASE_CURRENCY false st =
      (.ok (B.map fun r =>
        { date := r.date, opn := r.opn, high := r.high, low := r.low, close := r.close }),
       saveCurrencyData env X BASE_CURRENCY
         (B.map fun r =>
           { date := r.date, opn := r.opn, high := r.high, low := r.low, close := r.close })
         { st with cacheReads := st.cacheReads + 1, backendReads := st.backendReads + 1 }) ∧
    (hasCachedData X BASE_CURRENCY (getCurrencyPairData env X BASE_CURRENCY false st).2).1 = true := by
  have hmain : getCurrencyPairData env X BASE_CURRENCY false st =
      (.ok (B.map fun r =>
        { date := r.date, opn := r.opn, high := r.high, low := r.low, close := r.close }),
       saveCurrencyData env X BASE_CURRENCY
         (B.map fun r =>
           { date := r.date, opn := r.opn, high := r.high, low := r.low, close := r.close })
         { st with cacheReads := st.cacheReads + 1, backendReads := st.backendReads + 1 }) := by
    rw [getCurrencyPairData_base_eq]
    unfold getCurrencyPairDataBase
    rw [if_neg hX]
    unfold resolveDirect getCurrencyData fetchRatesFromBackend
    dsimp only
    rw [if_neg (by simp [hc])]
    rw [if_pos rfl]
    rw [hb]
    rw [if_pos (List.length_pos.mpr hB)]
  refine ⟨hmain, ?_⟩
  rw [hmain]
  unfold hasCachedData getCurrencyData saveCurrencyData
  dsimp only
  rw [lookup_putAssoc_self]
  simp [List.length_pos, hB]

/-- Witness for C8: empty cache, one backend row for EUR/USD. -/
theorem claim_C8_witness :
    getCurrencyPairData envC8 "EUR" BASE_CURRENCY false stC8 =
      (.ok ([recC8].map fun r =>
        { date := r.date, opn := r.opn, high := r.high, low := r.low, close := r.close }),
       saveCurrencyData envC8 "EUR" BASE_CURRENCY
         ([recC8].map fun r =>
           { date := r.date, opn := r.opn, high := r.high, low := r.low, close := r.close })
         { stC8 with cacheReads := stC8.cacheReads + 1, backendReads := stC8.backendReads + 1 }) ∧
    (hasCachedData "EUR" BASE_CURRENCY (getCurrencyPairData envC8 "EUR" BASE_CURRENCY false stC8).2).1 = true :=
  claim_C8 envC8 stC8 "EUR" [recC8] (by decide) (by decide)
    (by with_unfolding_all decide) (by decide)

/-- A cache hit: non-empty cached record and no forced refresh — the
resolution returns the cached rates after a single cache read. -/
theorem resolveDirect_cache_hit (env : Env) (f t : String) (st : St) (c : CurrencyData)
    (h : st.cache.lookup (getPairKey f t) = some c) (hne : c.rates ≠ []) :
    resolveDirect env f t false st = (.ok c.rates, { st with cacheReads := st.cacheReads + 1 }) := by
  unfold resolveDirect getCurrencyData
  dsimp only
  rw [h]
  have hpos : cachedNonEmpty (some c) = true := by
    unfold cachedNonEmpty
    simp [List.length_pos, hne]
  rw [if_pos ⟨hpos, rfl⟩]
  rfl

/-- When STEP 3 succeeds with a non-empty series while no usable cached
copy exists, the series came from the external API and was written to
the cache under the pair's key. -/
theorem resolveDirectStep3_ok_populates (env : Env) (f t : String)
    (cached : Option CurrencyData) (st st1 : St) (L : List DailyRate)
    (hcne : cachedNonEmpty cached = false)
    (h : resolveDirectStep3 env f t false cached st = (.ok L, st1)) (hL : L ≠ []) :
    ∃ c, st1.cache.lookup (getPairKey f t) = some c ∧ c.rates = L := by
  unfold resolveDirectStep3 at h
  split at h
  · cases hf : fetchFromApi env f t st with
    | mk r stf =>
      rw [hf] at h
      cases r with
      | ok rates =>
        dsimp only at h
        have hL' : L = rates := by
          have := congrArg Prod.fst h
          simpa using this.symm
        have hst : st1 = (if 0 < rates.length then
            saveRatesToBackend (rates.map fun r =>
              { from_currency := f, to_currency := t, date := r.date,
                opn := r.opn, high := r.high, low := r.low, close := r.close })
              (saveCurrencyData env f t rates stf)
          else saveCurrencyData env f t rates stf) := by
          have := congrArg Prod.snd h
          simpa using this.symm
        refine ⟨⟨f, t, L, env.now⟩, ?_, rfl⟩
        rw [hst, hL']
        split <;>
          simpa [saveRatesToBackend, saveCurrencyData] using
            lookup_putAssoc_self (getPairKey f t) (⟨f, t, rates, env.now⟩ : CurrencyData) stf.cache
      | error e =>
        dsimp only at h
        rw [if_neg (by simp [hcne])] at h
        exact absurd (congrArg Prod.fst h) (by simp)
  · have : L = [] := by
      have := congrArg Prod.fst h
      simpa using this.symm
    exact absurd this hL

/-- A successful, non-empty, non-forced base-case resolution leaves the
returned series stored in the local cache under the pair's key. -/
theorem resolveDirect_ok_populates (env : Env) (f t : String) (st st1 : St) (L : List DailyRate)
    (h : resolveDirect env f t false st = (.ok L, st1)) (hL : L ≠ []) :
    ∃ c, st1.cache.lookup (getPairKey f t) = some c ∧ c.rates = L := by
  unfold resolveDirect getCurrencyData fetchRatesFromBackend at h
  dsimp only at h
  split at h
  · -- cache hit
    rename_i hcond
    rcases hlk : st.cache.lookup (getPairKey f t) with _ | c
    · rw [hlk] at hcond
      simp [cachedNonEmpty] at hcond
    · rw [hlk] at h hcond
      have hL' : L = c.rates := by
        have := congrArg Prod.fst h
        simpa [cachedRates] using this.symm
      have hst : st1 = { st with cacheReads := st.cacheReads + 1 } := by
        have := congrArg Prod.snd h
        simpa using this.symm
      exact ⟨c, by rw [hst]; exact hlk, hL'.symm⟩
  · rename_i hcond
    have hcne : cachedNonEmpty (st.cache.lookup (getPairKey f t)) = false := by
      by_cases hx : cachedNonEmpty (st.cache.lookup (getPairKey f t)) = true
      · exact absurd ⟨hx, rfl⟩ hcond
      · simpa using hx
    rw [if_pos rfl] at h
    split at h
    · -- backend adoption
      have hL' : L = ((env.backendResp.lookup (f, t)).getD []).map fun r =>
          { date := r.date, opn := r.opn, high := r.high, low := r.low, close := r.close } := by
        have := congrArg Prod.fst h
        simpa using this.symm
      have hst : st1 = saveCurrencyData env f t
          (((env.backendResp.lookup (f, t)).getD []).map fun r =>
            { date := r.date, opn := r.opn, high := r.high, low := r.low, close := r.close })
          { st with cacheReads := st.cacheReads + 1, backendReads := st.backendReads + 1 } := by
        have := congrArg Prod.snd h
        simpa using this.symm
      refine ⟨⟨f, t, L, env.now⟩, ?_, rfl⟩
      rw [hst, hL']
      simpa [saveCurrencyData] using
        lookup_putAssoc_self (getPairKey f t)
          ((⟨f, t, ((env.backendResp.lookup (f, t)).getD []).map fun r =>
            { date := r.date, opn := r.opn, high := r.high, low := r.low, close := r.close },
            env.now⟩ : CurrencyData)) st.cache
    · exact resolveDirectStep3_ok_populates env f t _ _ st1 L hcne h hL

/-- C4 counterexample: empty cache, backend without data, external API
answering with an empty (but well-formed) series.  Both non-forced
calls return the identical empty sequence, but the second call is NOT
a pure cache hit and the two calls together perform more than one
underlying fetch: each call reads the backend once and performs one
external API network call (two backend reads and two API calls in
total). -/
theorem claim_C4_counterexample :
    (getCurrencyPairData envC4 "EUR" "USD" false stC4).1 = .ok [] ∧
    (getCurrencyPairData envC4 "EUR" "USD" false
      (getCurrencyPairData envC4 "EUR" "USD" false stC4).2).1 = .ok [] ∧
    (getCurrencyPairData envC4 "EUR" "USD" false
      (getCurrencyPairData envC4 "EUR" "USD" false stC4).2).2.apiNetworkCalls = 2 ∧
    (getCurrencyPairData envC4 "EUR" "USD" false
      (getCurrencyPairData envC4 "EUR" "USD" false stC4).2).2.backendReads = 2 := by
  with_unfolding_all decide

/-- C4 (amended): for X different from the base, when
resolvePair(X, base, false) succeeds with a NON-EMPTY series, calling
it again with no intervening cache invalidation returns the identical
series as a pure cache hit: the second call performs exactly one local
cache read and nothing else — no backend read, no API network call, no
budget change, no cache write. -/
theorem claim_C4_amended (env : Env) (st st1 : St) (X : String) (L : List DailyRate)
    (hX : X ≠ BASE_CURRENCY) (hL : L ≠ [])
    (h : getCurrencyPairData env X BASE_CURRENCY false st = (.ok L, st1)) :
    getCurrencyPairData env X BASE_CURRENCY false st1 =
      (.ok L, { st1 with cacheReads := st1.cacheReads + 1 }) := by
  rw [getCurrencyPairData_base_eq] at h ⊢
  unfold getCurrencyPairDataBase at h ⊢
  rw [if_neg hX] at h ⊢
  obtain ⟨c, hc, hrates⟩ := resolveDirect_ok_populates env X BASE_CURRENCY st st1 L h hL
  rw [resolveDirect_cache_hit env X BASE_CURRENCY st1 c hc (by rw [hrates]; exact hL), hrates]

/-- Witness for the amended C4: the first call adopts one backend row
into the cache; the second call is a pure cache hit. -/
theorem claim_C4_witness :
    getCurrencyPairData envC4w "EUR" BASE_CURRENCY false stC4w =
      (.ok [rateC4], (getCurrencyPairData envC4w "EUR" BASE_CURRENCY false stC4w).2) ∧
    getCurrencyPairData envC4w "EUR" BASE_CURRENCY false
        (getCurrencyPairData envC4w "EUR" BASE_CURRENCY false stC4w).2 =
      (.ok [rateC4],
       { (getCurrencyPairData envC4w "EUR" BASE_CURRENCY false stC4w).2 with
         cacheReads := (getCurrencyPairData envC4w "EUR" BASE_CURRENCY false stC4w).2.cacheReads + 1 }) :=
  ⟨by with_unfolding_all decide,
    claim_C4_amended envC4w stC4w (getCurrencyPairData envC4w "EUR" BASE_CURRENCY false stC4w).2
      "EUR" [rateC4] (by decide) (by decide) (by with_unfolding_all decide)⟩

/-- On a leg without duplicate dates, the last-wins JS map lookup is
the ordinary first match. -/
theorem mapGet_eq_find? (l : List DailyRate) (d : String)
    (h : (l.map fun r => r.date).Nodup) :
    mapGet l d = l.find? fun r => r.date == d := by
  induction l with
  | nil => rfl
  | cons a t ih =>
    rw [List.map_cons, List.nodup_cons] at h
    unfold mapGet at ih ⊢
    rw [List.reverse_cons, List.find?_append]
    by_cases hd : a.date = d
    · have hnone : t.reverse.find? (fun r => r.date == d) = none := by
        rw [List.find?_eq_none]
        intro x hx
        simp only [beq_eq_false_iff_ne, ne_eq, Bool.not_eq_true, beq_eq_false_iff_ne]
        intro hxd
        exact h.1 (List.mem_map.mpr ⟨x, List.mem_reverse.mp hx, by rw [hxd, hd]⟩)
      rw [hnone, List.find?_cons_of_pos t (by simp [hd])]
      simp [List.find?, hd]
    · have hbeq : (a.date == d) = false := by simp [hd]
      rw [List.find?_cons_of_neg t (by simp [hd]), ← ih h.2]
      simp [List.find?, hbeq]

/-- On a to-leg without duplicate dates, the source's
`calculateCrossRate` is exactly the spec's inner join. -/
theorem calculateCrossRate_eq_spec (L1 L2 : List DailyRate)
    (h : (L2.map fun r => r.date).Nodup) :
    calculateCrossRate L1 L2 = crossRateSpec L1 L2 := by
  induction L1 with
  | nil => rfl
  | cons a t ih =>
    have hm : mapGet L2 a.date = L2.find? fun b => b.date == a.date :=
      mapGet_eq_find? L2 a.date h
    unfold calculateCrossRate crossRateSpec at ih ⊢
    rw [List.filter_cons, List.filterMap_cons]
    cases hf : L2.find? fun b => b.date == a.date with
    | none =>
      have hcond : (mapGet L2 a.date).isSome = false := by
        rw [hm, hf]
        rfl
      rw [if_neg (by simp [hcond])]
      simpa using ih
    | some b =>
      have hcond : (mapGet L2 a.date).isSome = true := by
        rw [hm, hf]
        rfl
      rw [if_pos hcond, List.map_cons]
      dsimp only
      rw [hm, hf, ih]
      rfl

/-- C2: for X and Y both different from the base and from each other,
resolvePair(X, Y, f) — its two pivot legs run left first, as the
sequentialization of the source's Promise.all fan-out — equals the
spec's inner join of the two legs on exact ISO-date string equality:
only dates present in both legs survive, none are interpolated, each
joined record is cross-divided (open = open_from/open_to,
high = high_from/low_to, low = low_from/high_to,
close = close_from/close_to), and the join is the empty sequence
whenever either leg is empty.  The to-leg is assumed free of duplicate
dates (the CachedSeries invariant), which fixes the JS map's last-wins
lookup to the unique match. -/
theorem claim_C2 (env : Env) (st st1 st2 : St) (X Y : String) (force : Bool)
    (L1 L2 : List DailyRate)
    (hXY : X ≠ Y) (hX : X ≠ BASE_CURRENCY) (hY : Y ≠ BASE_CURRENCY)
    (hnd : (L2.map fun r => r.date).Nodup)
    (h1 : getCurrencyPairData env X BASE_CURRENCY force st = (.ok L1, st1))
    (h2 : getCurrencyPairData env Y BASE_CURRENCY force st1 = (.ok L2, st2)) :
    getCurrencyPairData env X Y force st = (.ok (crossRateSpec L1 L2), st2) := by
  rw [getCurrencyPairData_base_eq] at h1 h2
  unfold getCurrencyPairData
  rw [if_neg hXY]
  rw [if_neg (fun hh => hX hh.1)]
  rw [if_pos ⟨hX, hY⟩]
  rw [h1]
  dsimp only
  rw [h2]
  dsimp only
  split
  · rename_i hor
    rcases hor with hL | hL
    · have hnil : L1 = [] := List.length_eq_zero.mp hL
      subst hnil
      rfl
    · have hnil : L2 = [] := List.length_eq_zero.mp hL
      subst hnil
      simp [crossRateSpec]
  · rw [calculateCrossRate_eq_spec L1 L2 hnd]

/-- Witness for C2: cached EUR/USD with dates 01-01..01-03 and JPY/USD
with dates 01-02..01-04 — the cross series holds exactly the two
common dates. -/
theorem claim_C2_witness :
    getCurrencyPairData envC2 "EUR" "JPY" false stC2 =
      (.ok (crossRateSpec ratesC2eur ratesC2jpy), { stC2 with cacheReads := 2 }) ∧
    (crossRateSpec ratesC2eur ratesC2jpy).map (fun r => r.date) =
      ["2024-01-02", "2024-01-03"] :=
  ⟨claim_C2 envC2 stC2 { stC2 with cacheReads := 1 } { stC2 with cacheReads := 2 }
      "EUR" "JPY" false ratesC2eur ratesC2jpy
      (by decide) (by decide) (by decide) (by decide)
      (by with_unfolding_all decide) (by with_unfolding_all decide),
    by with_unfolding_all decide⟩

/-- The JS map holds a date exactly when some to-leg record carries it. -/
theorem mapGet_isSome (l : List DailyRate) (d : String) :
    (mapGet l d).isSome = (l.map fun r => r.date).contains d := by
  rw [Bool.eq_iff_iff]
  unfold mapGet
  rw [List.find?_isSome, List.contains_eq_any_beq, List.any_eq_true]
  constructor
  · rintro ⟨x, hx, hpx⟩
    refine ⟨x.date, List.mem_map.mpr ⟨x, List.mem_reverse.mp hx, rfl⟩, ?_⟩
    simp only [beq_iff_eq] at hpx ⊢
    exact hpx.symm
  · rintro ⟨y, hy, hby⟩
    obtain ⟨x, hxl, hxd⟩ := List.mem_map.mp hy
    refine ⟨x, List.mem_reverse.mpr hxl, ?_⟩
    simp only [beq_iff_eq] at hby ⊢
    rw [hxd]
    exact hby.symm

/-- C10: `calculateCrossRate` keeps the from-leg's order — its output
dates are exactly the from-leg dates that also occur in the to-leg, in
the from-leg's original relative order; in particular a strictly
ascending, duplicate-free from-leg yields a strictly ascending,
duplicate-free cross series. -/
theorem claim_C10 (a b : List DailyRate) :
    ((calculateCrossRate a b).map fun r => r.date) =
      ((a.map fun r => r.date).filter fun d =>
        (b.map fun r => r.date).contains d) ∧
    (List.Pairwise (fun x y : String => x < y) (a.map fun r => r.date) →
      List.Pairwise (fun x y : String => x < y)
        ((calculateCrossRate a b).map fun r => r.date)) := by
  have hdates : ((calculateCrossRate a b).map fun r => r.date) =
      ((a.map fun r => r.date).filter fun d =>
        (b.map fun r => r.date).contains d) := by
    induction a with
    | nil => rfl
    | cons x t ih =>
      unfold calculateCrossRate at ih ⊢
      rw [List.map_cons, List.filter_cons, List.filter_cons]
      rw [← mapGet_isSome b x.date]
      by_cases hx : (mapGet b x.date).isSome = true
      · rw [if_pos hx, if_pos hx, List.map_cons, List.map_cons]
        dsimp only
        rw [ih]
      · rw [if_neg hx, if_neg hx]
        exact ih
  refine ⟨hdates, fun hp => ?_⟩
  rw [hdates]
  exact List.Pairwise.sublist (List.filter_sublist _) hp

/-- Witness for C10 at two concrete overlapping legs. -/
theorem claim_C10_witness :
    List.Pairwise (fun x y : String => x < y) (ratesC10a.map fun r => r.date) ∧
    List.Pairwise (fun x y : String => x < y)
      ((calculateCrossRate ratesC10a ratesC10b).map fun r => r.date) :=
  ⟨by with_unfolding_all decide,
   (claim_C10 ratesC10a ratesC10b).2 (by with_unfolding_all decide)⟩

/-- `fetchFromApi` never touches the metadata store. -/
theorem fetchFromApi_meta (env : Env) (f t : String) (st : St) :
    (fetchFromApi env f t st).2.meta = st.meta := by
  unfold fetchFromApi
  split
  · rfl
  · cases lookupApi env f t <;> rfl

/-- Loop invariant of `prefetchLoop`: counts always add up to the
number of items processed, the progress log is exactly one event per
currency independent of outcomes, and the metadata store is untouched. -/
theorem prefetchLoop_spec (env : Env) (cs : List String) (total : Nat) :
    ∀ (current success failed : Nat) (log : List (Nat × Nat × String)) (st : St),
      (prefetchLoop env cs total current success failed log st).1.success +
        (prefetchLoop env cs total current success failed log st).1.failed =
        success + failed + cs.length ∧
      (prefetchLoop env cs total current success failed log st).2.1 =
        log ++ prefetchLogExpected current total cs ∧
      (prefetchLoop env cs total current success failed log st).2.2.meta = st.meta := by
  induction cs with
  | nil =>
    intro current success failed log st
    simp [prefetchLoop, prefetchLogExpected]
  | cons c rest ih =>
    intro current success failed log st
    unfold prefetchLoop
    cases hf : fetchFromApi env c BASE_CURRENCY st with
    | mk r st1 =>
      have hmeta : st1.meta = st.meta := by
        have h4 := fetchFromApi_meta env c BASE_CURRENCY st
        rw [hf] at h4
        exact h4
      cases r with
      | ok rates =>
        dsimp only
        have h3 := ih (current + 1) (success + 1) failed (log ++ [(current + 1, total, c)])
          (saveCurrencyData env c BASE_CURRENCY rates st1)
        refine ⟨?_, ?_, ?_⟩
        · rw [h3.1, List.length_cons]
          omega
        · rw [h3.2.1, List.append_assoc, List.singleton_append]
          rfl
        · rw [h3.2.2]
          exact hmeta
      | error e =>
        dsimp only
        have h3 := ih (current + 1) success (failed + 1) (log ++ [(current + 1, total, c)]) st1
        refine ⟨?_, ?_, ?_⟩
        · rw [h3.1, List.length_cons]
          omega
        · rw [h3.2.1, List.append_assoc, List.singleton_append]
          rfl
        · rw [h3.2.2]
          exact hmeta

/-- Currency projection of the expected progress log. -/
theorem prefetchLogExpected_currency (current total : Nat) (cs : List String) :
    ((prefetchLogExpected current total cs).map fun p => p.2.2) = cs := by
  induction cs generalizing current with
  | nil => rfl
  | cons c rest ih => simp [prefetchLogExpected, ih]

/-- Current-counter projection of the expected progress log. -/
theorem prefetchLogExpected_current (current total : Nat) (cs : List String) :
    ((prefetchLogExpected current total cs).map fun p => p.1) =
      List.range' (current + 1) cs.length := by
  induction cs generalizing current with
  | nil => rfl
  | cons c rest ih => simp [prefetchLogExpected, List.range', ih]

/-- Every expected progress event reports the same total. -/
theorem prefetchLogExpected_total (current total : Nat) (cs : List String) :
    ∀ p ∈ prefetchLogExpected current total cs, p.2.1 = total := by
  induction cs generalizing current with
  | nil =>
    intro p hp
    cases hp
  | cons c rest ih =>
    intro p hp
    unfold prefetchLogExpected at hp
    rcases List.mem_cons.mp hp with h | h
    · rw [h]
    · exact ih (current + 1) p h

/-- C6: in a forced blocking batch refresh every supported non-pivot
currency is attempted exactly once — per-item failures do not abort the
remaining items — so the returned success and failed counts sum to the
number of supported currencies; `(current, total, currency)` progress
is reported after each item, with `current` running 1..total over
exactly the supported currencies in order and `total` constant; and the
batch marker is set to today exactly when zero failures occurred,
otherwise left unchanged. -/
theorem claim_C6 (env : Env) (st : St) :
    (prefetchBasePairs env true st).1.success + (prefetchBasePairs env true st).1.failed =
      FETCH_CURRENCIES.length ∧
    ((prefetchBasePairs env true st).2.1.map fun p => p.2.2) = FETCH_CURRENCIES ∧
    ((prefetchBasePairs env true st).2.1.map fun p => p.1) =
      List.range' 1 FETCH_CURRENCIES.length ∧
    (∀ p ∈ (prefetchBasePairs env true st).2.1, p.2.1 = FETCH_CURRENCIES.length) ∧
    getMetadata "lastBatchUpdateDate" (prefetchBasePairs env true st).2.2 =
      (if (prefetchBasePairs env true st).1.failed = 0 then some env.today
       else getMetadata "lastBatchUpdateDate" st) := by
  have h := prefetchLoop_spec env FETCH_CURRENCIES FETCH_CURRENCIES.length 0 0 0 [] st
  unfold prefetchBasePairs
  rw [if_neg (by simp)]
  dsimp only
  refine ⟨by simpa using h.1, ?_, ?_, ?_, ?_⟩
  · rw [h.2.1, List.nil_append, prefetchLogExpected_currency]
  · rw [h.2.1, List.nil_append, prefetchLogExpected_current]
  · intro p hp
    rw [h.2.1, List.nil_append] at hp
    exact prefetchLogExpected_total 0 FETCH_CURRENCIES.length FETCH_CURRENCIES p hp
  · by_cases hfail :
      (prefetchLoop env FETCH_CURRENCIES FETCH_CURRENCIES.length 0 0 0 [] st).1.failed = 0
    · rw [if_pos hfail, if_pos hfail]
      unfold markBatchUpdateComplete saveMetadata getMetadata
      exact lookup_putAssoc_self _ _ _
    · rw [if_neg hfail, if_neg hfail]
      unfold getMetadata
      rw [h.2.2]

/-- The background sync loop leaves the budget record untouched. -/
theorem backgroundSyncLoop_rl (env : Env) (cs : List String) :
    ∀ (s f tr : Nat) (st : St),
      (backgroundSyncLoop env cs s f tr st).2.rl = st.rl := by
  induction cs with
  | nil =>
    intro s f tr st
    rfl
  | cons c rest ih =>
    intro s f tr st
    unfold backgroundSyncLoop hasCachedData getCurrencyData fetchRatesFromBackend
    dsimp only
    split
    · exact (ih _ _ _ _).trans rfl
    · split
      · exact (ih _ _ _ _).trans rfl
      · exact (ih _ _ _ _).trans rfl

/-- The background sync loop performs no external API network call. -/
theorem backgroundSyncLoop_api (env : Env) (cs : List String) :
    ∀ (s f tr : Nat) (st : St),
      (backgroundSyncLoop env cs s f tr st).2.apiNetworkCalls = st.apiNetworkCalls := by
  induction cs with
  | nil =>
    intro s f tr st
    rfl
  | cons c rest ih =>
    intro s f tr st
    unfold backgroundSyncLoop hasCachedData getCurrencyData fetchRatesFromBackend
    dsimp only
    split
    · exact (ih _ _ _ _).trans rfl
    · split
      · exact (ih _ _ _ _).trans rfl
      · exact (ih _ _ _ _).trans rfl

/-- Each currency processed by the background sync loop contributes
exactly one success or one failure. -/
theorem backgroundSyncLoop_counts (env : Env) (cs : List String) :
    ∀ (s f tr : Nat) (st : St),
      (backgroundSyncLoop env cs s f tr st).1.success +
        (backgroundSyncLoop env cs s f tr st).1.failed = s + f + cs.length := by
  induction cs with
  | nil =>
    intro s f tr st
    rfl
  | cons c rest ih =>
    intro s f tr st
    unfold backgroundSyncLoop hasCachedData getCurrencyData fetchRatesFromBackend
    dsimp only
    split
    · exact (ih _ _ _ _).trans (by simp [List.length_cons]; omega)
    · split
      · exact (ih _ _ _ _).trans (by simp [List.length_cons]; omega)
      · exact (ih _ _ _ _).trans (by simp [List.length_cons]; omega)

/-- C7: a background sync run never invokes the external rate adapter
and never consumes call budget — for every priority choice the budget
record and the API network-call counter are unchanged — and every
currency in the processed order contributes exactly one success or one
failure to the counts delivered to the completion callback (the
returned `SyncResult`). -/
theorem claim_C7 (env : Env) (prio : Option String) (st : St) :
    (backgroundSyncFromBackend env prio st).2.rl = st.rl ∧
    (backgroundSyncFromBackend env prio st).2.apiNetworkCalls = st.apiNetworkCalls ∧
    (backgroundSyncFromBackend env prio st).1.success +
      (backgroundSyncFromBackend env prio st).1.failed =
      (orderedCurrencies prio).length := by
  unfold backgroundSyncFromBackend
  refine ⟨backgroundSyncLoop_rl env _ 0 0 0 st,
         backgroundSyncLoop_api env _ 0 0 0 st, ?_⟩
  simpa using backgroundSyncLoop_counts env (orderedCurrencies prio) 0 0 0 st

/-- Witness for C6 at a concrete run (unreachable network: every item
fails, none aborts the rest, the marker stays unset). -/
theorem claim_C6_witness :
    ((1, 8, "EUR") ∈ (prefetchBasePairs envC6 true stC6).2.1 ∧
     ((1, 8, "EUR") : Nat × Nat × String).2.1 = FETCH_CURRENCIES.length) ∧
    (prefetchBasePairs envC6 true stC6).1.success +
      (prefetchBasePairs envC6 true stC6).1.failed = FETCH_CURRENCIES.length :=
  ⟨⟨by decide, (claim_C6 envC6 stC6).2.2.2.1 (1, 8, "EUR") (by decide)⟩,
   (claim_C6 envC6 stC6).1⟩
